/-
  Verification of the port/registry layer of the mechatronics-software
  repository, a shallow embedding of src/lib/code/BasePort.cpp and the
  EthBasePort header, with theorems settling the specification claims.
-/
import Mathlib

set_option maxHeartbeats 1000000

/-! ## Constants

`BoardIO::MAX_BOARDS` and `MAX_NODES` are declared in headers (BoardIO.h,
BasePort.h) that are not part of the given sources; their values are fixed
by the spec. -/

/-- Modelled from the spec: `BoardIO::MAX_BOARDS` (BoardIO.h is not among the
given sources); the spec fixes board-id capacity at 16 (ids in [0,16)). -/
def MAX_BOARDS : Nat := 16

/-- Modelled from the spec: `BasePort::MAX_NODES` (BasePort.h is not among the
given sources); 64 node ids, matching the 6-bit node addressing of the bus.
No claim depends on this value; it only appears in constructor defaults. -/
def MAX_NODES : Nat := 64

/-- Modelled from the spec: the `ProtocolType` enum of BasePort.h (not among
the given sources); the spec lists the three modes in the order SEQUENTIAL,
SEQUENTIAL-READ+BROADCAST-WRITE, BROADCAST-ALL, giving enum values 0,1,2. -/
def PROTOCOL_SEQ_RW : Nat := 0

/-- Modelled from the spec: second `ProtocolType` enumerator (see
`PROTOCOL_SEQ_RW`). -/
def PROTOCOL_SEQ_R_BC_W : Nat := 1

/-- Modelled from the spec: third `ProtocolType` enumerator (see
`PROTOCOL_SEQ_RW`). -/
def PROTOCOL_BC_QRW : Nat := 2

/-- Modelled from the spec: the `PortType` enum of BasePort.h (not among the
given sources); kinds native-bus (Firewire), raw-frame (Ethernet raw),
datagram (Ethernet UDP), giving enum values 0,1,2. -/
def PORT_FIREWIRE : Nat := 0

/-- Modelled from the spec: second `PortType` enumerator (see
`PORT_FIREWIRE`). -/
def PORT_ETH_RAW : Nat := 1

/-- Modelled from the spec: third `PortType` enumerator (see
`PORT_FIREWIRE`). -/
def PORT_ETH_UDP : Nat := 2

/-! ## Board handle

The external board collaborator (`BoardIO`): a board id and the back-pointer
`port` to the port it is registered with.  The back-pointer is modelled as a
Bool: `true` means it points at the (single) port under consideration,
`false` models the null pointer. -/

structure Board where
  BoardId : Int
  port : Bool
  deriving DecidableEq, Repr

/-! ## Port state

The fields of `BasePort` initialised by the constructor
(src/lib/code/BasePort.cpp lines 22-44).  The C++ `NumOfBoards_` counter is
modelled as `Int` so that increment/decrement are exact. Fixed-size arrays
indexed by board id / node id become functions out of `Fin`. -/

structure PortState where
  Protocol : Nat
  IsAllBoardsBroadcastCapable : Bool
  IsAllBoardsBroadcastShorterWait : Bool
  IsNoBoardsBroadcastShorterWait : Bool
  ReadSequence : Nat
  PortNum : Int
  NumOfNodes : Nat
  NumOfBoards : Int
  BoardInUseMask : Nat
  HubBoard : Nat
  BoardExists : Fin MAX_BOARDS → Bool
  BoardList : Fin MAX_BOARDS → Option Board
  FirmwareVersion : Fin MAX_BOARDS → Nat
  Board2Node : Fin MAX_BOARDS → Nat
  Node2Board : Fin MAX_NODES → Nat

/-- The `BasePort` constructor (BasePort.cpp lines 22-44). -/
def BasePort.construct (portNum : Int) : PortState where
  Protocol := PROTOCOL_SEQ_RW
  IsAllBoardsBroadcastCapable := false
  IsAllBoardsBroadcastShorterWait := false
  IsNoBoardsBroadcastShorterWait := true
  ReadSequence := 0
  PortNum := portNum
  NumOfNodes := 0
  NumOfBoards := 0
  BoardInUseMask := 0
  HubBoard := MAX_BOARDS
  BoardExists := fun _ => false
  BoardList := fun _ => none
  FirmwareVersion := fun _ => 0
  Board2Node := fun _ => MAX_NODES
  Node2Board := fun _ => MAX_BOARDS

/-! ## SetProtocol (BasePort.cpp lines 46-69)

The C++ method prints a message on the diagnostic stream in every branch;
the message kind is returned alongside the new state. -/

inductive ProtMsg where
  /-- Message "***Error: not all boards support broadcasting ..." -/
  | errNotBroadcastCapable
  /-- Message "System running in NON broadcast mode" -/
  | msgNonBroadcast
  /-- Message "System running with broadcast write" -/
  | msgBroadcastWrite
  /-- Message "System running with broadcast query, read, and write" -/
  | msgBroadcastQRW
  /-- Message "Unknown protocol (ignored): ..." -/
  | msgUnknownProtocol
  deriving DecidableEq, Repr

def SetProtocol (s : PortState) (prot : Nat) : PortState × ProtMsg :=
  if s.IsAllBoardsBroadcastCapable = false ∧ prot ≠ PROTOCOL_SEQ_RW then
    (s, ProtMsg.errNotBroadcastCapable)
  else if prot = PROTOCOL_SEQ_RW then
    ({ s with Protocol := prot }, ProtMsg.msgNonBroadcast)
  else if prot = PROTOCOL_SEQ_R_BC_W then
    ({ s with Protocol := prot }, ProtMsg.msgBroadcastWrite)
  else if prot = PROTOCOL_BC_QRW then
    ({ s with Protocol := prot }, ProtMsg.msgBroadcastQRW)
  else
    (s, ProtMsg.msgUnknownProtocol)

/-! ## AddBoard / RemoveBoard (BasePort.cpp lines 71-107)

`AddBoard` returns (new port state, the board object after the
`board->port = this` write, success flag); `RemoveBoard` returns (new port
state, the removed board object after the `board->port = 0` write if any,
success flag).  In the C++ the board stored in the slot and the argument
alias one object; value semantics makes this explicit here. -/

def AddBoard (s : PortState) (b : Board) : PortState × Board × Bool :=
  if h : b.BoardId < 0 ∨ (MAX_BOARDS : Int) ≤ b.BoardId then
    (s, b, false)
  else
    let idx : Fin MAX_BOARDS := ⟨b.BoardId.toNat, by
      push_neg at h
      omega⟩
    let b' : Board := { b with port := true }
    ({ s with
        BoardList := Function.update s.BoardList idx (some b')
        BoardInUseMask := s.BoardInUseMask ||| (1 <<< idx.val)
        NumOfBoards := s.NumOfBoards + 1 },
     b', true)

def RemoveBoard (s : PortState) (boardId : Nat) : PortState × Option Board × Bool :=
  if h : MAX_BOARDS ≤ boardId then
    (s, none, false)
  else
    let idx : Fin MAX_BOARDS := ⟨boardId, by omega⟩
    match s.BoardList idx with
    | none => (s, none, false)
    | some board =>
        ({ s with
            BoardInUseMask := s.BoardInUseMask &&& (0xFFFFFFFF ^^^ (1 <<< boardId))
            BoardList := Function.update s.BoardList idx none
            NumOfBoards := s.NumOfBoards - 1 },
         some { board with port := false }, true)

/-! ## Registry observation helpers -/

/-- The board handle stored in the slot for a board id (none when the id is
out of range). -/
def boardSlot (s : PortState) (id : Nat) : Option Board :=
  if h : id < MAX_BOARDS then s.BoardList ⟨id, h⟩ else none

/-- The in-use bit of a board id in `BoardInUseMask_`. -/
def inUse (s : PortState) (id : Nat) : Bool :=
  s.BoardInUseMask.testBit id

/-- The board-existence flag `BoardExists[id]` (false when the id is out of
range). -/
def boardExistsAt (s : PortState) (id : Nat) : Bool :=
  if h : id < MAX_BOARDS then s.BoardExists ⟨id, h⟩ else false

/-- Number of occupied registry slots. -/
def occupiedCount (s : PortState) : Nat :=
  (Finset.univ.filter (fun i : Fin MAX_BOARDS => (s.BoardList i).isSome)).card

/-- Registry invariant: the in-use bit of id i is set iff a board handle is
stored in slot i. -/
def RegistryInv (s : PortState) : Prop :=
  ∀ i : Fin MAX_BOARDS, s.BoardInUseMask.testBit i.val = (s.BoardList i).isSome

instance (s : PortState) : Decidable (RegistryInv s) := by
  unfold RegistryInv
  infer_instance

/-! ## PortTypeString (BasePort.cpp lines 109-119) -/

def PortTypeString (portType : Nat) : String :=
  if portType = PORT_FIREWIRE then "Firewire"
  else if portType = PORT_ETH_RAW then "Ethernet-Raw"
  else if portType = PORT_ETH_UDP then "Ethernet-UDP"
  else "Unknown"

/-! ## ParseOptions (BasePort.cpp lines 128-147)

Descriptor strings are modelled as `List Char` (C strings have no interior
NUL).  `sscanf(p, "%d", &x) == 1` is modelled by `sscanfD`: skip leading
whitespace, optional sign, then at least one decimal digit. -/

def isCSpace (c : Char) : Bool :=
  c = ' ' || c = '\t' || c = '\n' || c = '\x0b' || c = '\x0c' || c = '\r'

def dropSpaces : List Char → List Char
  | [] => []
  | c :: cs => if isCSpace c then dropSpaces cs else c :: cs

/-- Longest leading run of decimal digits. -/
def leadDigits : List Char → List Char
  | [] => []
  | c :: cs => if c.isDigit then c :: leadDigits cs else []

/-- Value of a decimal digit string. -/
def digitsToNat (ds : List Char) : Nat :=
  ds.foldl (fun a c => 10 * a + (c.toNat - 48)) 0

def scanUnsigned (cs : List Char) : Option Int :=
  if leadDigits cs = [] then none else some ((digitsToNat (leadDigits cs) : Nat) : Int)

/-- Model of `sscanf(s, "%d", &x) == 1`: `some x` on a successful conversion. -/
def sscanfD (s : List Char) : Option Int :=
  match dropSpaces s with
  | [] => none
  | c :: cs =>
      if c = '-' then (scanUnsigned cs).map (fun n => -n)
      else if c = '+' then scanUnsigned cs
      else scanUnsigned (c :: cs)

/-- Result of `BasePort::ParseOptions`: the by-reference outputs `portNum`
and `IPaddr` are `none` when the call leaves them unmodified; `portType` is
written on every path. -/
structure ParseResult where
  ok : Bool
  portType : Nat
  portNum : Option Int
  iPaddr : Option (List Char)
  deriving DecidableEq, Repr

def ParseOptions (arg : List Char) : ParseResult :=
  if arg.take 2 = ['f', 'w'] then
    { ok := (sscanfD (arg.drop 2)).isSome
      portType := PORT_FIREWIRE
      portNum := sscanfD (arg.drop 2)
      iPaddr := none }
  else if arg.take 3 = ['e', 't', 'h'] then
    { ok := (sscanfD (arg.drop 3)).isSome
      portType := PORT_ETH_RAW
      portNum := sscanfD (arg.drop 3)
      iPaddr := none }
  else if arg.take 3 = ['u', 'd', 'p'] then
    { ok := true
      portType := PORT_ETH_UDP
      portNum := none
      iPaddr := if 8 ≤ (arg.drop 3).length then some (arg.drop 5) else none }
  else
    { ok := (sscanfD arg).isSome
      portType := PORT_FIREWIRE
      portNum := sscanfD arg
      iPaddr := none }

/-! ## EthBasePort (bridged transport, header in the unnamed sources)

Only the state fields declared in the header and the inline
`NumberOfUsers` method are needed; timing fields are kept as `Float` to
mirror the C++ `double`s (no claim reasons about them). -/

structure EthPortState where
  base : PortState
  is_fw_master : Bool
  fw_tl : Nat
  ReceiveTimeout : Float
  FwBusReset : Bool
  FPGA_RecvTime : Float
  FPGA_TotalTime : Float

/-- Method `EthBasePort::NumberOfUsers` (inline in the header): `return 1;`. -/
def EthBasePort.NumberOfUsers (_s : EthPortState) : Int := 1

/-! ## Helper lemmas on the in-use mask bit operations -/

lemma one_shiftLeft_testBit (id j : Nat) : (1 <<< id).testBit j = decide (id = j) := by
  rw [Nat.one_shiftLeft, Nat.testBit_two_pow]

lemma setBit_testBit (m id j : Nat) :
    (m ||| (1 <<< id)).testBit j = (m.testBit j || decide (id = j)) := by
  rw [Nat.testBit_or, one_shiftLeft_testBit]

lemma clearMask_testBit (m id j : Nat) (hid : id < 32) :
    (m &&& (0xFFFFFFFF ^^^ (1 <<< id))).testBit j
      = (m.testBit j && (decide (j < 32) && !decide (id = j))) := by
  rw [Nat.testBit_and, Nat.testBit_xor, one_shiftLeft_testBit]
  have h32 : (0xFFFFFFFF : Nat) = 2 ^ 32 - 1 := by norm_num
  rw [h32, Nat.testBit_two_pow_sub_one]
  congr 1
  by_cases hj : j < 32 <;> by_cases hij : id = j
  · simp [hj, hij]
  · simp [hj, hij]
  · omega
  · simp [hj, hij]

lemma mask_set_clear (m id : Nat) (hid : id < 32) (hbit : m.testBit id = false)
    (hlt : m < 2 ^ 32) :
    (m ||| (1 <<< id)) &&& (0xFFFFFFFF ^^^ (1 <<< id)) = m := by
  apply Nat.eq_of_testBit_eq
  intro j
  rw [clearMask_testBit _ _ _ hid, setBit_testBit]
  by_cases hij : id = j
  · subst hij
    simp [hbit]
  · by_cases hj : j < 32
    · simp [hij, hj]
    · have hm : m.testBit j = false := by
        refine Nat.testBit_lt_two_pow (lt_of_lt_of_le hlt ?_)
        exact Nat.pow_le_pow_right (by norm_num) (by omega)
      simp [hij, hj, hm]

/-! ## Claim theorems -/

/-- C8: for the bridged (Ethernet) transport, `NumberOfUsers` returns 1 for
every state of the port, unconditionally. -/
theorem EthBasePort_NumberOfUsers_one (s : EthPortState) :
    EthBasePort.NumberOfUsers s = 1 := rfl

/-- C9: the port-type name lookup is total: "Firewire" for the native-bus
kind, "Ethernet-Raw" for the raw-frame kind, "Ethernet-UDP" for the datagram
kind, and "Unknown" for every other input value, never failing. -/
theorem PortTypeString_total (t : Nat) :
    PortTypeString PORT_FIREWIRE = "Firewire" ∧
    PortTypeString PORT_ETH_RAW = "Ethernet-Raw" ∧
    PortTypeString PORT_ETH_UDP = "Ethernet-UDP" ∧
    (t ≠ PORT_FIREWIRE → t ≠ PORT_ETH_RAW → t ≠ PORT_ETH_UDP →
      PortTypeString t = "Unknown") := by
  refine ⟨rfl, rfl, rfl, ?_⟩
  intro h1 h2 h3
  unfold PortTypeString
  rw [if_neg h1, if_neg h2, if_neg h3]

/-- Witness for C9: the value 7 is none of the three kinds and maps to
"Unknown". -/
theorem PortTypeString_total_witness : PortTypeString 7 = "Unknown" :=
  (PortTypeString_total 7).2.2.2 (by decide) (by decide) (by decide)

/-- C2 (code bug): on "udp192.168.1.1" the code stores the IP-address output
from byte offset 5 of the descriptor, yielding "2.168.1.1", not the
"192.168.1.1" promised by the spec example and by the function's own header
comment (`udpxx.xx.xx.xx ... xx.xx.xx.xx is the (optional) server IP
address`); with fewer than 8 characters after "udp" the call still succeeds
with the IP-address output unmodified. -/
theorem ParseOptions_udp_offset_bug :
    ParseOptions ("udp192.168.1.1".data)
      = { ok := true, portType := PORT_ETH_UDP, portNum := none,
          iPaddr := some ("2.168.1.1".data) } ∧
    ("2.168.1.1".data ≠ "192.168.1.1".data) ∧
    ParseOptions ("udpabc".data)
      = { ok := true, portType := PORT_ETH_UDP, portNum := none,
          iPaddr := none } := by
  refine ⟨by decide, by decide, by decide⟩

/-- C1: SetProtocol reports the broadcast-capability error and leaves the
whole state unchanged when not all boards are broadcast-capable and the
requested mode is not SEQUENTIAL; any value outside the three known modes
leaves the stored mode unchanged; and the stored mode changes only when the
guard passes and the value is one of the three known modes, in which case it
becomes that value. -/
theorem SetProtocol_guard_spec (s : PortState) (prot : Nat) :
    (s.IsAllBoardsBroadcastCapable = false → prot ≠ PROTOCOL_SEQ_RW →
      SetProtocol s prot = (s, ProtMsg.errNotBroadcastCapable)) ∧
    (prot ≠ PROTOCOL_SEQ_RW → prot ≠ PROTOCOL_SEQ_R_BC_W → prot ≠ PROTOCOL_BC_QRW →
      (SetProtocol s prot).1 = s) ∧
    ((SetProtocol s prot).1.Protocol ≠ s.Protocol →
      (s.IsAllBoardsBroadcastCapable = true ∨ prot = PROTOCOL_SEQ_RW) ∧
      (prot = PROTOCOL_SEQ_RW ∨ prot = PROTOCOL_SEQ_R_BC_W ∨ prot = PROTOCOL_BC_QRW) ∧
      (SetProtocol s prot).1.Protocol = prot) := by
  unfold SetProtocol
  refine ⟨?_, ?_, ?_⟩
  · intro hcap hne
    rw [if_pos ⟨hcap, hne⟩]
  · intro h1 h2 h3
    split_ifs <;> simp_all
  · intro hch
    split_ifs at hch ⊢ <;> simp_all

/-- Witness for C1: with no broadcast-capable boards (fresh port), requesting
mode 2 reports the error and leaves the state unchanged; requesting the
unknown mode 7 leaves the state unchanged. -/
theorem SetProtocol_guard_spec_witness :
    SetProtocol (BasePort.construct 0) 2
      = (BasePort.construct 0, ProtMsg.errNotBroadcastCapable) ∧
    (SetProtocol (BasePort.construct 0) 7).1 = BasePort.construct 0 :=
  ⟨(SetProtocol_guard_spec (BasePort.construct 0) 2).1 rfl (by decide),
   (SetProtocol_guard_spec (BasePort.construct 0) 7).2.1
     (by decide) (by decide) (by decide)⟩

/-! ## Lemmas about the descriptor scanner on digit strings -/

lemma isDigit_ne_of {c : Char} (x : Char) (h : c.isDigit = true)
    (hx : x.isDigit = false) : c ≠ x := by
  intro he
  subst he
  rw [h] at hx
  exact absurd hx (by decide)

lemma digit_not_space {c : Char} (h : c.isDigit = true) : isCSpace c = false := by
  by_contra hc
  rw [Bool.not_eq_false] at hc
  unfold isCSpace at hc
  simp only [Bool.or_eq_true, decide_eq_true_eq] at hc
  rcases hc with ((((h1 | h1) | h1) | h1) | h1) | h1 <;> subst h1 <;>
    exact absurd h (by decide)

lemma leadDigits_all (ds : List Char) (h : ∀ c ∈ ds, c.isDigit = true) :
    leadDigits ds = ds := by
  induction ds with
  | nil => rfl
  | cons d rest ih =>
      have hd := h d (by simp)
      simp [leadDigits, hd, ih (fun c hc => h c (by simp [hc]))]

lemma dropSpaces_digit (d : Char) (rest : List Char) (h : d.isDigit = true) :
    dropSpaces (d :: rest) = d :: rest := by
  simp [dropSpaces, digit_not_space h]

lemma sscanfD_digits (ds : List Char) (hne : ds ≠ [])
    (hdig : ∀ c ∈ ds, c.isDigit = true) :
    sscanfD ds = some ((digitsToNat ds : Nat) : Int) := by
  cases ds with
  | nil => exact absurd rfl hne
  | cons d rest =>
      have hd : d.isDigit = true := hdig d (by simp)
      have h1 : dropSpaces (d :: rest) = d :: rest := dropSpaces_digit d rest hd
      have hm : ¬(d = '-') := isDigit_ne_of '-' hd (by decide)
      have hp : ¬(d = '+') := isDigit_ne_of '+' hd (by decide)
      have hld : leadDigits (d :: rest) = d :: rest := leadDigits_all _ hdig
      unfold sscanfD
      rw [h1]
      simp only [hm, hp, if_false, ite_false, if_neg hm, if_neg hp]
      unfold scanUnsigned
      rw [hld]
      simp

/-- C5: ParseOptions maps "fw"+digits to the native-bus kind with the parsed
number, "eth"+digits to the raw-frame kind with the parsed number, a bare
digit string to the native-bus kind with the parsed number, and fails on a
descriptor such as "xyz" with no known prefix and a non-numeric leading
field; in particular fw2 → (native-bus, 2), eth3 → (raw-frame, 3),
5 → (native-bus, 5). -/
theorem ParseOptions_grammar (ds : List Char) (hne : ds ≠ [])
    (hdig : ∀ c ∈ ds, c.isDigit = true) :
    ParseOptions ('f' :: 'w' :: ds)
      = { ok := true, portType := PORT_FIREWIRE,
          portNum := some ((digitsToNat ds : Nat) : Int), iPaddr := none } ∧
    ParseOptions ('e' :: 't' :: 'h' :: ds)
      = { ok := true, portType := PORT_ETH_RAW,
          portNum := some ((digitsToNat ds : Nat) : Int), iPaddr := none } ∧
    ParseOptions ds
      = { ok := true, portType := PORT_FIREWIRE,
          portNum := some ((digitsToNat ds : Nat) : Int), iPaddr := none } ∧
    ParseOptions ("fw2".data)
      = { ok := true, portType := PORT_FIREWIRE, portNum := some 2, iPaddr := none } ∧
    ParseOptions ("eth3".data)
      = { ok := true, portType := PORT_ETH_RAW, portNum := some 3, iPaddr := none } ∧
    ParseOptions ("5".data)
      = { ok := true, portType := PORT_FIREWIRE, portNum := some 5, iPaddr := none } ∧
    (ParseOptions ("xyz".data)).ok = false := by
  have hs := sscanfD_digits ds hne hdig
  refine ⟨?_, ?_, ?_, by decide, by decide, by decide, by decide⟩
  · simp [ParseOptions, hs]
  · simp [ParseOptions, hs]
  · cases ds with
    | nil => exact absurd rfl hne
    | cons d rest =>
        have hd : d.isDigit = true := hdig d (by simp)
        have hf : d ≠ 'f' := isDigit_ne_of 'f' hd (by decide)
        have he : d ≠ 'e' := isDigit_ne_of 'e' hd (by decide)
        have hu : d ≠ 'u' := isDigit_ne_of 'u' hd (by decide)
        simp [ParseOptions, List.take, hf, he, hu, hs]

/-- Witness for C5: the general grammar theorem instantiated at the digit
string "2". -/
theorem ParseOptions_grammar_witness :
    ParseOptions ("fw2".data)
      = { ok := true, portType := PORT_FIREWIRE, portNum := some 2, iPaddr := none } ∧
    ParseOptions ("eth2".data)
      = { ok := true, portType := PORT_ETH_RAW, portNum := some 2, iPaddr := none } ∧
    ParseOptions ("2".data)
      = { ok := true, portType := PORT_FIREWIRE, portNum := some 2, iPaddr := none } ∧
    (ParseOptions ("xyz".data)).ok = false := by
  have h := ParseOptions_grammar ['2'] (by decide) (by decide)
  exact ⟨h.1, h.2.1, h.2.2.1, h.2.2.2.2.2.2⟩

/-! ## Unfolding lemmas for the registry operations -/

lemma MAX_BOARDS_eq : MAX_BOARDS = 16 := rfl

lemma AddBoard_pos (s : PortState) (b : Board)
    (h0 : 0 ≤ b.BoardId) (h1 : b.BoardId < (MAX_BOARDS : Int)) :
    AddBoard s b =
      ({ s with
          BoardList := Function.update s.BoardList
            ⟨b.BoardId.toNat, by rw [MAX_BOARDS_eq] at h1 ⊢; omega⟩
            (some { b with port := true })
          BoardInUseMask := s.BoardInUseMask ||| (1 <<< b.BoardId.toNat)
          NumOfBoards := s.NumOfBoards + 1 },
       { b with port := true }, true) := by
  have hno : ¬(b.BoardId < 0 ∨ (MAX_BOARDS : Int) ≤ b.BoardId) := by
    push_neg
    exact ⟨h0, h1⟩
  simp only [AddBoard]
  rw [dif_neg hno]

lemma RemoveBoard_oob (s : PortState) (bid : Nat) (h : MAX_BOARDS ≤ bid) :
    RemoveBoard s bid = (s, none, false) := by
  simp only [RemoveBoard]
  rw [dif_pos h]

lemma RemoveBoard_empty (s : PortState) (bid : Nat) (h : bid < MAX_BOARDS)
    (he : s.BoardList ⟨bid, h⟩ = none) :
    RemoveBoard s bid = (s, none, false) := by
  have hno : ¬(MAX_BOARDS ≤ bid) := by omega
  simp only [RemoveBoard]
  rw [dif_neg hno]
  split
  · rfl
  · next b hb => rw [he] at hb; cases hb

lemma RemoveBoard_found (s : PortState) (bid : Nat) (h : bid < MAX_BOARDS)
    (b : Board) (hb : s.BoardList ⟨bid, h⟩ = some b) :
    RemoveBoard s bid =
      ({ s with
          BoardInUseMask := s.BoardInUseMask &&& (0xFFFFFFFF ^^^ (1 <<< bid))
          BoardList := Function.update s.BoardList ⟨bid, h⟩ none
          NumOfBoards := s.NumOfBoards - 1 },
       some { b with port := false }, true) := by
  have hno : ¬(MAX_BOARDS ≤ bid) := by omega
  simp only [RemoveBoard]
  rw [dif_neg hno]
  split
  · next hnone => rw [hb] at hnone; cases hnone
  · next b2 hb2 =>
      rw [hb] at hb2
      injection hb2 with hbe
      subst hbe
      rfl

/-- C4: the registry invariant (in-use bit of i set iff a handle is stored
in slot i) holds in the freshly constructed port state and is preserved by
every AddBoard and RemoveBoard call, succeeding or failing. -/
theorem RegistryInv_preserved (pn : Int) (s : PortState) (b : Board) (bid : Nat) :
    RegistryInv (BasePort.construct pn) ∧
    (RegistryInv s → RegistryInv (AddBoard s b).1) ∧
    (RegistryInv s → RegistryInv (RemoveBoard s bid).1) := by
  refine ⟨?_, ?_, ?_⟩
  · intro i
    simp [BasePort.construct, Nat.zero_testBit]
  · intro hinv i
    by_cases hid : b.BoardId < 0 ∨ (MAX_BOARDS : Int) ≤ b.BoardId
    · simp only [AddBoard]
      rw [dif_pos hid]
      exact hinv i
    · push_neg at hid
      rw [AddBoard_pos s b hid.1 hid.2]
      simp only [setBit_testBit, Function.update_apply]
      by_cases hv : i.val = b.BoardId.toNat
      · rw [if_pos (Fin.ext hv)]
        simp [hv]
      · rw [if_neg (fun hcon => hv (congrArg Fin.val hcon))]
        simp [Ne.symm hv, hinv i]
  · intro hinv i
    by_cases hbb : MAX_BOARDS ≤ bid
    · rw [RemoveBoard_oob s bid hbb]
      exact hinv i
    · push_neg at hbb
      cases hsl : s.BoardList ⟨bid, hbb⟩ with
      | none =>
          rw [RemoveBoard_empty s bid hbb hsl]
          exact hinv i
      | some b2 =>
          rw [RemoveBoard_found s bid hbb b2 hsl]
          have hb32 : bid < 32 := by
            rw [MAX_BOARDS_eq] at hbb
            omega
          have hi32 : i.val < 32 :=
            lt_of_lt_of_le i.isLt (by rw [MAX_BOARDS_eq]; omega)
          simp only [clearMask_testBit _ _ _ hb32, Function.update_apply]
          by_cases hv : i.val = bid
          · rw [if_pos (Fin.ext hv)]
            simp [hv]
          · rw [if_neg (fun hcon => hv (congrArg Fin.val hcon))]
            simp [hi32, Ne.symm hv, hinv i]

/-- Witness for C4: the invariant holds after adding a board with id 3 to a
fresh port, by preservation from the fresh-port invariant. -/
theorem RegistryInv_preserved_witness :
    RegistryInv (AddBoard (BasePort.construct 0) { BoardId := 3, port := false }).1 :=
  (RegistryInv_preserved 0 (BasePort.construct 0)
      { BoardId := 3, port := false } 0).2.1 (by decide)

/-- C6: for a board whose id is in [0,16), AddBoard returns true, stores the
board handle in that id's slot, sets the board's back-reference to this
port, sets the in-use bit, and increments the board count by one; for an id
outside [0,16) it returns false. -/
theorem AddBoard_success_spec (s : PortState) (b : Board) :
    (0 ≤ b.BoardId → b.BoardId < (MAX_BOARDS : Int) →
      (AddBoard s b).2.2 = true ∧
      boardSlot (AddBoard s b).1 b.BoardId.toNat = some { b with port := true } ∧
      (AddBoard s b).2.1 = { b with port := true } ∧
      (AddBoard s b).2.1.port = true ∧
      inUse (AddBoard s b).1 b.BoardId.toNat = true ∧
      (AddBoard s b).1.NumOfBoards = s.NumOfBoards + 1) ∧
    ((b.BoardId < 0 ∨ (MAX_BOARDS : Int) ≤ b.BoardId) →
      (AddBoard s b).2.2 = false) := by
  constructor
  · intro h0 h1
    have hlt : b.BoardId.toNat < MAX_BOARDS := by
      rw [MAX_BOARDS_eq] at h1 ⊢
      omega
    rw [AddBoard_pos s b h0 h1]
    refine ⟨rfl, ?_, rfl, rfl, ?_, rfl⟩
    · unfold boardSlot
      rw [dif_pos hlt]
      simp [Function.update_apply]
    · unfold inUse
      simp [setBit_testBit]
  · intro h
    simp only [AddBoard]
    rw [dif_pos h]

/-- Witness for C6: adding a board with id 4 to a fresh port succeeds and
records the slot; a board with id 16 is rejected. -/
theorem AddBoard_success_spec_witness :
    boardSlot (AddBoard (BasePort.construct 0) { BoardId := 4, port := false }).1 4
      = some { BoardId := 4, port := true } ∧
    (AddBoard (BasePort.construct 0) { BoardId := 16, port := false }).2.2 = false :=
  ⟨((AddBoard_success_spec (BasePort.construct 0)
      { BoardId := 4, port := false }).1 (by decide) (by decide)).2.1,
   (AddBoard_success_spec (BasePort.construct 0)
      { BoardId := 16, port := false }).2 (by decide)⟩

/-- C7: RemoveBoard fails when the id is out of range or the slot holds no
handle, in both cases returning the state exactly as it was; on success it
clears the stored handle, clears the board's back-reference, clears the
in-use bit, and decrements the board count. -/
theorem RemoveBoard_failClosed_spec (s : PortState) (bid : Nat) (b : Board) :
    (MAX_BOARDS ≤ bid → RemoveBoard s bid = (s, none, false)) ∧
    (boardSlot s bid = none → RemoveBoard s bid = (s, none, false)) ∧
    (boardSlot s bid = some b →
      (RemoveBoard s bid).2.2 = true ∧
      boardSlot (RemoveBoard s bid).1 bid = none ∧
      (RemoveBoard s bid).2.1 = some { b with port := false } ∧
      inUse (RemoveBoard s bid).1 bid = false ∧
      (RemoveBoard s bid).1.NumOfBoards = s.NumOfBoards - 1) := by
  refine ⟨fun h => RemoveBoard_oob s bid h, ?_, ?_⟩
  · intro hnone
    by_cases hb : MAX_BOARDS ≤ bid
    · exact RemoveBoard_oob s bid hb
    · push_neg at hb
      unfold boardSlot at hnone
      rw [dif_pos hb] at hnone
      exact RemoveBoard_empty s bid hb hnone
  · intro hsome
    have hb : bid < MAX_BOARDS := by
      by_contra hc
      unfold boardSlot at hsome
      rw [dif_neg hc] at hsome
      cases hsome
    unfold boardSlot at hsome
    rw [dif_pos hb] at hsome
    rw [RemoveBoard_found s bid hb b hsome]
    have hb32 : bid < 32 := by
      rw [MAX_BOARDS_eq] at hb
      omega
    refine ⟨rfl, ?_, rfl, ?_, rfl⟩
    · unfold boardSlot
      rw [dif_pos hb]
      simp [Function.update_apply]
    · unfold inUse
      rw [clearMask_testBit _ _ _ hb32]
      simp

/-- Witness for C7: on a fresh port, removing id 3 (empty slot) and id 99
(out of range) both fail and return the state unchanged. -/
theorem RemoveBoard_failClosed_spec_witness :
    RemoveBoard (BasePort.construct 0) 3 = (BasePort.construct 0, none, false) ∧
    RemoveBoard (BasePort.construct 0) 99 = (BasePort.construct 0, none, false) :=
  ⟨(RemoveBoard_failClosed_spec (BasePort.construct 0) 3
      { BoardId := 0, port := false }).2.1 (by decide),
   (RemoveBoard_failClosed_spec (BasePort.construct 0) 99
      { BoardId := 0, port := false }).1 (by decide)⟩

/-- C3 counterexample: adding a board with id 5 to a fresh port succeeds and
sets the in-use bit, but the board-existence flag `BoardExists[5]` remains
false — AddBoard never touches the `BoardExists` table, so the claim that
the board-existence indication is set after the add is false. -/
theorem AddBoard_boardExists_counterexample :
    (AddBoard (BasePort.construct 0) { BoardId := 5, port := false }).2.2 = true ∧
    inUse (AddBoard (BasePort.construct 0) { BoardId := 5, port := false }).1 5 = true ∧
    boardExistsAt (AddBoard (BasePort.construct 0) { BoardId := 5, port := false }).1 5
      = false := by
  refine ⟨by decide, by decide, by decide⟩

/-- C3 amended: for every board id in [0,16), starting from a state whose
slot for that id is empty and whose in-use bit for that id is clear (any
state reachable by balanced adds and removes, in particular a fresh port),
AddBoard followed by RemoveBoard restores the registry exactly; the stored
handle and the in-use bit are set after the add and cleared after the
remove; the BoardExists table is not modified by either call; and for ids
outside [0,16) both calls fail without mutating any table. -/
theorem AddRemove_roundtrip_amended (s : PortState) (b : Board)
    (h0 : 0 ≤ b.BoardId) (h1 : b.BoardId < (MAX_BOARDS : Int))
    (hempty : boardSlot s b.BoardId.toNat = none)
    (hbit : inUse s b.BoardId.toNat = false)
    (hmask : s.BoardInUseMask < 2 ^ 32) :
    boardSlot (AddBoard s b).1 b.BoardId.toNat = some { b with port := true } ∧
    inUse (AddBoard s b).1 b.BoardId.toNat = true ∧
    boardExistsAt (AddBoard s b).1 b.BoardId.toNat = boardExistsAt s b.BoardId.toNat ∧
    (RemoveBoard (AddBoard s b).1 b.BoardId.toNat).1 = s ∧
    boardSlot (RemoveBoard (AddBoard s b).1 b.BoardId.toNat).1 b.BoardId.toNat = none ∧
    inUse (RemoveBoard (AddBoard s b).1 b.BoardId.toNat).1 b.BoardId.toNat = false ∧
    (∀ bid2 : Nat, MAX_BOARDS ≤ bid2 → RemoveBoard s bid2 = (s, none, false)) ∧
    (∀ b2 : Board, b2.BoardId < 0 ∨ (MAX_BOARDS : Int) ≤ b2.BoardId →
      AddBoard s b2 = (s, b2, false)) := by
  have hlt : b.BoardId.toNat < MAX_BOARDS := by
    rw [MAX_BOARDS_eq] at h1 ⊢
    omega
  have hb32 : b.BoardId.toNat < 32 := lt_of_lt_of_le hlt (by rw [MAX_BOARDS_eq]; omega)
  unfold boardSlot at hempty
  rw [dif_pos hlt] at hempty
  unfold inUse at hbit
  rw [AddBoard_pos s b h0 h1]
  have hslot :
      (Function.update s.BoardList ⟨b.BoardId.toNat, hlt⟩
          (some { b with port := true })) ⟨b.BoardId.toNat, hlt⟩
        = some { b with port := true } := by
    simp [Function.update_apply]
  have hrem := RemoveBoard_found
      ({ s with
          BoardList := Function.update s.BoardList ⟨b.BoardId.toNat, hlt⟩
            (some { b with port := true })
          BoardInUseMask := s.BoardInUseMask ||| (1 <<< b.BoardId.toNat)
          NumOfBoards := s.NumOfBoards + 1 })
      b.BoardId.toNat hlt { b with port := true } hslot
  rw [hrem]
  have hrestore :
      (s.BoardInUseMask ||| (1 <<< b.BoardId.toNat))
          &&& (0xFFFFFFFF ^^^ (1 <<< b.BoardId.toNat))
        = s.BoardInUseMask := mask_set_clear _ _ hb32 hbit hmask
  have hbl :
      Function.update
          (Function.update s.BoardList ⟨b.BoardId.toNat, hlt⟩
            (some { b with port := true }))
          ⟨b.BoardId.toNat, hlt⟩ none
        = s.BoardList := by
    funext i
    by_cases hi : i = ⟨b.BoardId.toNat, hlt⟩
    · subst hi
      simp [Function.update_apply, hempty]
    · simp [Function.update_noteq hi]
  refine ⟨?_, ?_, rfl, ?_, ?_, ?_,
    fun bid2 h => RemoveBoard_oob s bid2 h,
    fun b2 h => by simp only [AddBoard]; rw [dif_pos h]⟩
  · unfold boardSlot
    rw [dif_pos hlt]
    exact hslot
  · unfold inUse
    simp [setBit_testBit]
  · show ({ s with
        BoardInUseMask := _
        BoardList := _
        NumOfBoards := s.NumOfBoards + 1 - 1 } : PortState) = s
    rw [hrestore, hbl]
    obtain ⟨pr, cap, w1, w2, rs, pn, nn, nb, mask, hub, be, bl, fv, bn2, n2b⟩ := s
    simp
  · unfold boardSlot
    rw [dif_pos hlt]
    rw [hbl]
    exact hempty
  · unfold inUse
    rw [hrestore]
    exact hbit

/-- Witness for C3 (amended): on a fresh port, adding board id 3 and then
removing id 3 restores the fresh-port state exactly. -/
theorem AddRemove_roundtrip_witness :
    (RemoveBoard (AddBoard (BasePort.construct 0)
        { BoardId := 3, port := false }).1 3).1 = BasePort.construct 0 :=
  (AddRemove_roundtrip_amended (BasePort.construct 0)
      { BoardId := 3, port := false }
      (by decide) (by decide) (by decide) (by decide) (by decide)).2.2.2.1

/-- C10: AddBoard on an id in [0,16) whose slot is already occupied still
returns true, silently replaces the stored handle with the new board (last
writer wins — the only board object written is the new one), leaves the
in-use bit set, and increments the board count again, so the slot count is
unchanged while the board count grows: after a double registration the
board count exceeds the number of occupied slots. -/
theorem AddBoard_double_registration (s : PortState) (b1 b2 : Board)
    (h0 : 0 ≤ b2.BoardId) (h1 : b2.BoardId < (MAX_BOARDS : Int))
    (hocc : boardSlot s b2.BoardId.toNat = some b1) :
    (AddBoard s b2).2.2 = true ∧
    boardSlot (AddBoard s b2).1 b2.BoardId.toNat = some { b2 with port := true } ∧
    (AddBoard s b2).2.1 = { b2 with port := true } ∧
    inUse (AddBoard s b2).1 b2.BoardId.toNat = true ∧
    (AddBoard s b2).1.NumOfBoards = s.NumOfBoards + 1 ∧
    occupiedCount (AddBoard s b2).1 = occupiedCount s ∧
    (s.NumOfBoards = (occupiedCount s : Int) →
      (occupiedCount (AddBoard s b2).1 : Int) < (AddBoard s b2).1.NumOfBoards) := by
  have hlt : b2.BoardId.toNat < MAX_BOARDS := by
    rw [MAX_BOARDS_eq] at h1 ⊢
    omega
  unfold boardSlot at hocc
  rw [dif_pos hlt] at hocc
  rw [AddBoard_pos s b2 h0 h1]
  have hcount :
      occupiedCount
        ({ s with
            BoardList := Function.update s.BoardList ⟨b2.BoardId.toNat, hlt⟩
              (some { b2 with port := true })
            BoardInUseMask := s.BoardInUseMask ||| (1 <<< b2.BoardId.toNat)
            NumOfBoards := s.NumOfBoards + 1 })
        = occupiedCount s := by
    unfold occupiedCount
    congr 1
    apply Finset.filter_congr
    intro i _
    by_cases hi : i = ⟨b2.BoardId.toNat, hlt⟩
    · subst hi
      simp [Function.update_apply, hocc]
    · simp [Function.update_noteq hi]
  refine ⟨rfl, ?_, rfl, ?_, rfl, hcount, ?_⟩
  · unfold boardSlot
    rw [dif_pos hlt]
    simp [Function.update_apply]
  · unfold inUse
    simp [setBit_testBit]
  · intro heq
    rw [hcount]
    simp only []
    omega

/-- Witness for C10: adding board id 3 twice to a fresh port leaves one
occupied slot but a board count of two. -/
theorem AddBoard_double_registration_witness :
    (occupiedCount (AddBoard (AddBoard (BasePort.construct 0)
        { BoardId := 3, port := false }).1 { BoardId := 3, port := false }).1 : Int)
      < (AddBoard (AddBoard (BasePort.construct 0)
        { BoardId := 3, port := false }).1 { BoardId := 3, port := false }).1.NumOfBoards :=
  (AddBoard_double_registration
      (AddBoard (BasePort.construct 0) { BoardId := 3, port := false }).1
      { BoardId := 3, port := true } { BoardId := 3, port := false }
      (by decide) (by decide) (by decide)).2.2.2.2.2.2 (by decide)
